import Mathlib

/-!
Verification of the TDS applicability / rate / reconciliation engine
(`tds_app`).  Amounts, rates and thresholds are embedded as rationals,
table columns with possibly-missing values as `Option`, and the pandas
data-frame passes of `step2_prepare_expense_data.py` and
`step5_tds_reconciliation.py` as pure functions over lists of records.
-/

namespace TdsApp

/-- Model of `_round_away` (step2, lines 238-239):
`int(x + 0.9999) if x >= 0 else int(x - 0.9999)`.
Python `int` truncates toward zero; for `x ≥ 0` the argument
`x + 0.9999` is nonnegative so truncation is `Int.floor`, and for
`x < 0` the argument `x - 0.9999` is negative so truncation is
`Int.ceil`. -/
def round_away (x : ℚ) : ℤ :=
  if 0 ≤ x then ⌊x + 9999/10000⌋ else ⌈x - 9999/10000⌉

theorem round_away_zero : round_away 0 = 0 := by
  unfold round_away
  norm_num

theorem round_away_nonneg_eq (x : ℚ) (hx : 0 ≤ x) :
    round_away x = ⌊x + 9999/10000⌋ := by
  unfold round_away
  rw [if_pos hx]

/-- `round_away` is an odd function. -/
theorem round_away_neg (x : ℚ) : round_away (-x) = -round_away x := by
  unfold round_away
  rcases lt_trichotomy x 0 with h | h | h
  · rw [if_pos (by linarith), if_neg (by linarith)]
    rw [show (-x + 9999/10000 : ℚ) = -(x - 9999/10000) by ring, Int.floor_neg]
  · subst h; norm_num
  · rw [if_neg (by linarith), if_pos (by linarith)]
    rw [show (-x - 9999/10000 : ℚ) = -(x + 9999/10000) by ring, Int.ceil_neg]

theorem round_away_nonneg_of_nonneg (x : ℚ) (hx : 0 ≤ x) :
    0 ≤ round_away x := by
  rw [round_away_nonneg_eq x hx]
  positivity

theorem round_away_le_ceil (x : ℚ) (hx : 0 ≤ x) :
    round_away x ≤ ⌈x⌉ := by
  rw [round_away_nonneg_eq x hx]
  have h2 : ⌊x + 9999/10000⌋ < ⌈x⌉ + 1 := by
    apply Int.floor_lt.mpr
    push_cast
    have := Int.le_ceil x
    linarith
  omega

theorem round_away_eq_ceil_of_fract (x : ℚ) (hx : 0 ≤ x)
    (hf : Int.fract x = 0 ∨ 1/10000 ≤ Int.fract x) :
    round_away x = ⌈x⌉ := by
  have hfr : x = (⌊x⌋ : ℚ) + Int.fract x := by
    unfold Int.fract
    ring
  rcases hf with hf | hf
  · obtain ⟨n, hn⟩ : ∃ n : ℤ, x = (n : ℚ) := ⟨⌊x⌋, by rw [hf, add_zero] at hfr; exact hfr⟩
    subst hn
    rw [round_away_nonneg_eq _ hx, Int.floor_int_add, Int.ceil_intCast]
    norm_num
  · have hlow : ⌊x⌋ + 1 ≤ round_away x := by
      rw [round_away_nonneg_eq x hx]
      apply Int.le_floor.mpr
      push_cast
      have : (⌊x⌋ : ℚ) + 1/10000 ≤ x := by linarith [hfr]
      linarith
    have hup := round_away_le_ceil x hx
    have hcf := Int.ceil_le_floor_add_one x
    omega

theorem round_away_abs (x : ℚ) : |round_away x| = round_away |x| := by
  rcases le_or_lt 0 x with hx | hx
  · rw [abs_of_nonneg hx, abs_of_nonneg (round_away_nonneg_of_nonneg x hx)]
  · have hneg : round_away x = -round_away (-x) := by
      rw [round_away_neg x]
      ring
    have hpos : 0 ≤ round_away (-x) :=
      round_away_nonneg_of_nonneg (-x) (by linarith)
    rw [abs_of_neg hx, hneg, abs_neg, abs_of_nonneg hpos]

/-- Claim C1 (counterexample): the rounding helper does NOT satisfy
`|round_away x| = ⌈|x|⌉` for every rational: at `x = 20001/20000`
(equal to `1.00005`) the code computes `int(1.00005 + 0.9999) = 1`
while `⌈1.00005⌉ = 2`. -/
theorem round_away_claim_counterexample :
    ¬ |round_away ((20001 : ℚ)/20000)| = ⌈|(20001 : ℚ)/20000|⌉ := by
  have h1 : round_away ((20001 : ℚ)/20000) = 1 := by
    rw [round_away_nonneg_eq _ (by norm_num)]
    rw [show (20001 : ℚ)/20000 + 9999/10000 = 39999/20000 by norm_num]
    exact Int.floor_eq_iff.mpr (by norm_num)
  have h2 : ⌈|(20001 : ℚ)/20000|⌉ = 2 := by
    rw [abs_of_nonneg (by norm_num : (0 : ℚ) ≤ 20001/20000)]
    exact Int.ceil_eq_iff.mpr (by norm_num)
  rw [h1, h2]
  norm_num

/-- Claim C1 (amended): `round_away` has the same sign as its argument
(or is zero) and its absolute value is at most `⌈|x|⌉`, with equality
whenever the fractional part of `|x|` is zero or at least `1/10000`;
magnitudes whose fractional part lies in `(0, 1/10000)` are truncated
instead of rounded up. -/
theorem round_away_spec (x : ℚ) :
    (0 ≤ x → 0 ≤ round_away x) ∧
    (x ≤ 0 → round_away x ≤ 0) ∧
    |round_away x| ≤ ⌈|x|⌉ ∧
    ((Int.fract |x| = 0 ∨ 1/10000 ≤ Int.fract |x|) →
      |round_away x| = ⌈|x|⌉) := by
  refine ⟨round_away_nonneg_of_nonneg x, ?_, ?_, ?_⟩
  · intro hx
    have h1 : 0 ≤ round_away (-x) :=
      round_away_nonneg_of_nonneg (-x) (by linarith)
    have h2 := round_away_neg x
    omega
  · rw [round_away_abs]
    exact round_away_le_ceil |x| (abs_nonneg x)
  · intro hf
    rw [round_away_abs]
    exact round_away_eq_ceil_of_fract |x| (abs_nonneg x) hf

/-- Evaluation of `round_away` at integers (no fractional part). -/
theorem round_away_int (n : ℤ) : round_away (n : ℚ) = n := by
  have nonneg : ∀ m : ℤ, 0 ≤ m → round_away (m : ℚ) = m := by
    intro m hm
    rw [round_away_nonneg_eq _ (by exact_mod_cast hm), Int.floor_int_add]
    rw [show ⌊(9999/10000 : ℚ)⌋ = 0 from Int.floor_eq_iff.mpr (by norm_num)]
    omega
  rcases le_or_lt 0 n with h | h
  · exact nonneg n h
  · have h1 : round_away ((-n : ℤ) : ℚ) = -n := nonneg (-n) (by omega)
    have h2 : round_away (-(n : ℚ)) = -round_away (n : ℚ) := round_away_neg _
    rw [show ((-n : ℤ) : ℚ) = -(n : ℚ) by push_cast; ring] at h1
    omega

/-- Witness for C1: the amended rounding law evaluated at `x = 12.3`
(`round_away 12.3 = 13 = ⌈12.3⌉`, nonnegative result). -/
theorem round_away_spec_witness :
    |round_away ((123 : ℚ)/10)| = ⌈|(123 : ℚ)/10|⌉ ∧
    0 ≤ round_away ((123 : ℚ)/10) :=
  ⟨(round_away_spec ((123 : ℚ)/10)).2.2.2 (Or.inr (by
      rw [abs_of_nonneg (by norm_num : (0 : ℚ) ≤ 123/10)]
      simp only [Int.fract]
      rw [show ⌊(123 : ℚ)/10⌋ = 12 from Int.floor_eq_iff.mpr (by norm_num)]
      norm_num)),
   (round_away_spec ((123 : ℚ)/10)).1 (by norm_num)⟩

/-! ## The processed expense table and `calculate_tds_amounts` -/

/-- Model of a row of `processed_df` at the point where
`calculate_tds_amounts` runs (step2).  `month` stands for the parsed
`Month` column (the transaction date truncated to month granularity by
`strftime("%b-%y")` at line 107 and parsed back at lines 274-276);
`rowNo` is the `Row No` column inserted at line 318. -/
structure PRow where
  vendor : String      -- "Vendor Associated"
  pan_type : String    -- "PAN_type" (4th char of trimmed upper PAN)
  month : ℕ            -- "Month" / "TxnDate" (month granularity)
  rowNo : ℕ            -- "Row No"
  amount : ℚ           -- "Amount"
  sec : String         -- "TDS Section"
  limit1 : ℚ           -- "Limit 1"
  limit2 : Option ℚ    -- "Limit 2" (NaN kept as `none`)
  rateInd : ℚ          -- "Rate (Individual)"
  rateOther : ℚ        -- "Rate (Other)"
  total : ℚ            -- "Total_Vendor_Amount"
  app : String         -- "TDS Applicable"
  rate : ℚ             -- "TDS Rate"
  reason : String      -- "TDS Applicability Reason"
  tdsAmount : ℤ        -- "TDS Amount"
  deriving DecidableEq

/-- Model of `np.sign` on rationals. -/
def qsign (x : ℚ) : ℚ := if x < 0 then -1 else if x = 0 then 0 else 1

/-- The per-line 194Q TDS amount (step2, lines 288-297), given the
vendor's running cumulative `cum` before this line. -/
def tdsOf (cum : ℚ) (r : PRow) : ℤ :=
  round_away (if r.app = "Yes" then
      if 5000000 ≤ |cum| then r.amount * r.rate / 100
      else if 5000000 < |cum| + |r.amount| then
        qsign r.amount * (|cum| + |r.amount| - 5000000) * r.rate / 100
      else 0
    else 0)

/-- One update of the `vendor_cum` dictionary
(`vendor_cum[v] = cum + amt`, line 298). -/
def stepCum (cum : String → ℚ) (r : PRow) : String → ℚ :=
  fun v => if v = r.vendor then cum r.vendor + r.amount else cum v

/-- The `vendor_cum` dictionary after processing a list of lines,
starting from `cum` (`vendor_cum.get(v, 0)` reads a missing key as 0,
so the dictionary is a total function defaulting to the start state). -/
def runCum (cum : String → ℚ) (ls : List PRow) : String → ℚ :=
  ls.foldl stepCum cum

/-- The 194Q loop of `calculate_tds_amounts` (step2, lines 280-299):
each row is emitted with its `TDS Amount` recomputed from the running
cumulative, which is then updated by the row's signed amount
regardless of the applicability outcome. -/
def calcQAux (cum : String → ℚ) : List PRow → List PRow
  | [] => []
  | r :: rs => { r with tdsAmount := tdsOf (cum r.vendor) r } ::
      calcQAux (stepCum cum r) rs

/-- The 194Q pass as invoked: `vendor_cum = {}` (line 280), i.e. every
invocation starts each vendor's cumulative at zero. -/
def calcQ (ls : List PRow) : List PRow := calcQAux (fun _ => 0) ls

/-- Sum of the signed amounts of vendor `v`'s lines among the first
`i` lines of the pass (the spec-side description of the accumulator). -/
def cumBefore (ls : List PRow) (i : ℕ) (v : String) : ℚ :=
  (((ls.take i).filter fun r => r.vendor = v).map PRow.amount).sum

theorem length_calcQAux (ls : List PRow) :
    ∀ cum, (calcQAux cum ls).length = ls.length := by
  induction ls with
  | nil => intro cum; rfl
  | cons r rs ih =>
    intro cum
    show (calcQAux cum (r :: rs)).length = rs.length + 1
    rw [calcQAux, List.length_cons, ih]

theorem length_calcQ (ls : List PRow) : (calcQ ls).length = ls.length :=
  length_calcQAux ls _

/-- The dictionary state after a list of updates is the start state
plus the sum of the matching lines' signed amounts. -/
theorem runCum_eq (ls : List PRow) :
    ∀ (cum : String → ℚ) (v : String),
      runCum cum ls v =
        cum v + ((ls.filter fun r => r.vendor = v).map PRow.amount).sum := by
  induction ls with
  | nil => intro cum v; simp [runCum]
  | cons r rs ih =>
    intro cum v
    show runCum (stepCum cum r) rs v = _
    rw [ih]
    by_cases h : r.vendor = v
    · rw [stepCum, if_pos h.symm, h]
      rw [List.filter_cons_of_pos (by simp [h]), List.map_cons, List.sum_cons]
      ring
    · rw [stepCum, if_neg (fun hv => h hv.symm)]
      rw [List.filter_cons_of_neg (by simp [h])]

theorem calcQAux_get (ls : List PRow) :
    ∀ (cum : String → ℚ) (i : ℕ) (hi : i < ls.length),
      (calcQAux cum ls).get ⟨i, by rw [length_calcQAux]; exact hi⟩ =
        { ls.get ⟨i, hi⟩ with
          tdsAmount :=
            tdsOf (runCum cum (ls.take i) (ls.get ⟨i, hi⟩).vendor)
              (ls.get ⟨i, hi⟩) } := by
  induction ls with
  | nil => intro cum i hi; exact absurd hi (by simp)
  | cons r rs ih =>
    intro cum i hi
    cases i with
    | zero => simp [calcQAux, runCum]
    | succ n =>
      have hn : n < rs.length := by simpa using hi
      have := ih (stepCum cum r) n hn
      simpa [calcQAux, runCum] using this

theorem round_away_10000 : round_away (10000 : ℚ) = 10000 := by
  rw [round_away_nonneg_eq _ (by norm_num)]
  exact Int.floor_eq_iff.mpr (by norm_num)

/-- The row at position `i` of a 194Q pass output: all fields of the
input row, with the TDS amount computed from the pass-local cumulative
of the row's vendor over the lines processed before it. -/
theorem calcQ_get (ls : List PRow) (i : ℕ) (hi : i < ls.length) :
    (calcQ ls).get ⟨i, by rw [length_calcQ]; exact hi⟩ =
      { ls.get ⟨i, hi⟩ with
        tdsAmount :=
          tdsOf (cumBefore ls i (ls.get ⟨i, hi⟩).vendor) (ls.get ⟨i, hi⟩) } := by
  have h := calcQAux_get ls (fun _ => 0) i hi
  have hc : runCum (fun _ => 0) (ls.take i) (ls.get ⟨i, hi⟩).vendor =
      cumBefore ls i (ls.get ⟨i, hi⟩).vendor := by
    rw [runCum_eq, cumBefore]
    ring
  rw [hc] at h
  exact h

/-- Example line for the spec's threshold-crossing scenario: one
vendor, amount 20,00,000, rate 1%, flagged applicable, section 194Q. -/
def exLine (n : ℕ) : PRow :=
  { vendor := "V", pan_type := "", month := n, rowNo := n,
    amount := 2000000, sec := "194Q", limit1 := 5000000, limit2 := none,
    rateInd := 1, rateOther := 1, total := 6000000, app := "Yes",
    rate := 1, reason := "", tdsAmount := 0 }

/-- Claim C2: in the 194Q pass, for every line flagged applicable,
with `cum` the vendor's signed cumulative over all previously
processed lines (updated regardless of outcome): if `|cum|` already
meets the ₹50,00,000 threshold the TDS is
`round_away(amount*rate/100)`; else if `|cum| + |amount|` strictly
exceeds the threshold only the excess is taxed with the sign of the
line's amount; else the TDS is 0.  In particular three chronological
lines of 20,00,000 at rate 1% yield TDS amounts 0, 0, 10000. -/
theorem calc194Q_threshold_spec :
    (∀ (ls : List PRow) (i : ℕ) (hi : i < ls.length),
      (ls.get ⟨i, hi⟩).app = "Yes" →
      ((calcQ ls).get ⟨i, by rw [length_calcQ]; exact hi⟩).tdsAmount =
        (if 5000000 ≤ |cumBefore ls i (ls.get ⟨i, hi⟩).vendor| then
          round_away ((ls.get ⟨i, hi⟩).amount * (ls.get ⟨i, hi⟩).rate / 100)
        else if 5000000 < |cumBefore ls i (ls.get ⟨i, hi⟩).vendor| +
            |(ls.get ⟨i, hi⟩).amount| then
          round_away (qsign (ls.get ⟨i, hi⟩).amount *
            (|cumBefore ls i (ls.get ⟨i, hi⟩).vendor| +
              |(ls.get ⟨i, hi⟩).amount| - 5000000) *
            (ls.get ⟨i, hi⟩).rate / 100)
        else 0)) ∧
    (calcQ [exLine 1, exLine 2, exLine 3]).map PRow.tdsAmount = [0, 0, 10000] := by
  constructor
  · intro ls i hi happ
    rw [calcQ_get ls i hi]
    show tdsOf (cumBefore ls i (ls.get ⟨i, hi⟩).vendor) (ls.get ⟨i, hi⟩) = _
    rw [tdsOf, if_pos happ]
    by_cases h1 : (5000000 : ℚ) ≤ |cumBefore ls i (ls.get ⟨i, hi⟩).vendor|
    · rw [if_pos h1, if_pos h1]
    · rw [if_neg h1, if_neg h1]
      by_cases h2 : (5000000 : ℚ) <
          |cumBefore ls i (ls.get ⟨i, hi⟩).vendor| + |(ls.get ⟨i, hi⟩).amount|
      · rw [if_pos h2, if_pos h2]
      · rw [if_neg h2, if_neg h2, round_away_zero]
  · show (calcQ [exLine 1, exLine 2, exLine 3]).map PRow.tdsAmount = [0, 0, 10000]
    have e1 : tdsOf 0 (exLine 1) = 0 := by
      rw [tdsOf]
      norm_num [exLine, round_away_zero]
    have e2 : tdsOf 2000000 (exLine 2) = 0 := by
      rw [tdsOf]
      norm_num [exLine, round_away_zero]
    have e3 : tdsOf 4000000 (exLine 3) = 10000 := by
      rw [tdsOf]
      norm_num [exLine, qsign]
      exact round_away_10000
    simp only [calcQ, calcQAux, stepCum, exLine, List.map_cons, List.map_nil]
    norm_num
    refine ⟨?_, ?_, ?_⟩
    · simpa [exLine] using e1
    · simpa [exLine] using e2
    · simpa [exLine] using e3

/-- Witness for C2: the threshold rule applied to the third line of
the 20,00,000 / 20,00,000 / 20,00,000 scenario, whose applicability
flag is "Yes" and whose TDS comes out as 10000. -/
theorem calc194Q_threshold_spec_witness :
    (([exLine 1, exLine 2, exLine 3] : List PRow).get ⟨2, by norm_num⟩).app =
      "Yes" ∧
    ((calcQ [exLine 1, exLine 2, exLine 3]).get
        ⟨2, by rw [length_calcQ]; norm_num⟩).tdsAmount = 10000 := by
  refine ⟨rfl, ?_⟩
  rw [calc194Q_threshold_spec.1 [exLine 1, exLine 2, exLine 3] 2 (by norm_num)
    rfl]
  have hcum : cumBefore [exLine 1, exLine 2, exLine 3] 2
      (([exLine 1, exLine 2, exLine 3] : List PRow).get ⟨2, by norm_num⟩).vendor =
      4000000 := by
    simp [cumBefore, exLine]
    norm_num
  rw [hcum]
  norm_num [exLine, qsign]
  exact round_away_10000

/-- Claim C7: every invocation of the 194Q amount pass starts the
per-vendor accumulator at zero, so at any point of a pass the
accumulator of vendor `v` equals the sum of the signed amounts of
`v`'s lines evaluated so far in that pass alone, and every output
amount is a function of the pass's own input list only. -/
theorem calc194Q_accumulator_fresh (ls : List PRow) (i : ℕ) (v : String) :
    runCum (fun _ => 0) (ls.take i) v =
      (((ls.take i).filter fun r => r.vendor = v).map PRow.amount).sum ∧
    (∀ hi : i < ls.length,
      ((calcQ ls).get ⟨i, by rw [length_calcQ]; exact hi⟩).tdsAmount =
        tdsOf (cumBefore ls i (ls.get ⟨i, hi⟩).vendor) (ls.get ⟨i, hi⟩)) := by
  constructor
  · rw [runCum_eq]
    ring
  · intro hi
    rw [calcQ_get ls i hi]

/-- Witness for C7: the accumulator invariant at a concrete two-line
pass (the accumulator before line 1 equals line 0's amount, and line
1's output amount is computed from it). -/
theorem calc194Q_accumulator_fresh_witness :
    ((calcQ [exLine 1, exLine 2]).get
        ⟨1, by rw [length_calcQ]; norm_num⟩).tdsAmount =
      tdsOf (cumBefore [exLine 1, exLine 2] 1
          (([exLine 1, exLine 2] : List PRow).get ⟨1, by norm_num⟩).vendor)
        (([exLine 1, exLine 2] : List PRow).get ⟨1, by norm_num⟩) :=
  (calc194Q_accumulator_fresh [exLine 1, exLine 2] 1 "V").2 (by norm_num)

/-! ## The 194Q chronological sort (step2, lines 274-279)

`df_194q.sort_values(by=["Vendor Associated", "TxnDate", "Row No"])`,
where `TxnDate` is parsed back from the month-granular `Month` column.
The `Row No` tiebreaker is unique, so the key order is total and the
sorted order is independent of the sorting algorithm; we model it with
an insertion sort by the same key. -/

/-- The sort key actually used by the code: vendor, then the
month-granular transaction date, then original row number. -/
def sortKey (r : PRow) : String ×ₗ (ℕ ×ₗ ℕ) :=
  toLex (r.vendor, toLex (r.month, r.rowNo))

def keyLe (a b : PRow) : Prop := sortKey a ≤ sortKey b

instance keyLeDec : ∀ a b : PRow, Decidable (keyLe a b) := fun a b =>
  inferInstanceAs (Decidable (sortKey a ≤ sortKey b))

def insertSorted (r : PRow) : List PRow → List PRow
  | [] => [r]
  | x :: xs => if keyLe r x then r :: x :: xs else x :: insertSorted r xs

def sortLines (ls : List PRow) : List PRow := ls.foldr insertSorted []

theorem perm_insertSorted (r : PRow) (ls : List PRow) :
    List.Perm (insertSorted r ls) (r :: ls) := by
  induction ls with
  | nil => rfl
  | cons x xs ih =>
    simp only [insertSorted]
    by_cases hle : keyLe r x
    · rw [if_pos hle]
    · rw [if_neg hle]
      exact (ih.cons x).trans (List.Perm.swap r x xs)

theorem pairwise_insertSorted (r : PRow) (ls : List PRow)
    (h : ls.Pairwise keyLe) : (insertSorted r ls).Pairwise keyLe := by
  induction ls with
  | nil => simp [insertSorted]
  | cons x xs ih =>
    rw [List.pairwise_cons] at h
    obtain ⟨hx, hxs⟩ := h
    simp only [insertSorted]
    by_cases hle : keyLe r x
    · rw [if_pos hle, List.pairwise_cons]
      refine ⟨?_, List.pairwise_cons.mpr ⟨hx, hxs⟩⟩
      intro b hb
      rcases List.mem_cons.mp hb with rfl | hb
      · exact hle
      · exact le_trans hle (hx b hb)
    · rw [if_neg hle, List.pairwise_cons]
      constructor
      · intro b hb
        rcases List.mem_cons.mp ((perm_insertSorted r xs).mem_iff.mp hb) with
          rfl | hbxs
        · exact le_of_not_le hle
        · exact hx b hbxs
      · exact ih hxs

theorem sortLines_perm (ls : List PRow) : List.Perm (sortLines ls) ls := by
  induction ls with
  | nil => rfl
  | cons x xs ih =>
    exact (perm_insertSorted x (sortLines xs)).trans (ih.cons x)

theorem sortLines_sorted (ls : List PRow) :
    (sortLines ls).Pairwise keyLe := by
  induction ls with
  | nil => simp [sortLines]
  | cons x xs ih => exact pairwise_insertSorted x (sortLines xs) ih

theorem keyLe_iff (a b : PRow) :
    keyLe a b ↔ a.vendor < b.vendor ∨ (a.vendor = b.vendor ∧
      (a.month < b.month ∨ (a.month = b.month ∧ a.rowNo ≤ b.rowNo))) := by
  unfold keyLe sortKey
  rw [Prod.Lex.le_iff, Prod.Lex.le_iff]

/-- A daybook line as it enters step2, carrying the full transaction
date `(month, day)`; the row build (line 107) keeps only
`strftime("%b-%y")`, i.e. the month component. -/
structure BLine where
  vendor : String
  date : ℕ × ℕ
  rowNo : ℕ
  amount : ℚ
  deriving DecidableEq

/-- The `Month` column: the transaction date truncated to its month. -/
def monthOf (d : ℕ × ℕ) : ℕ := d.1

/-- The processed row built from a daybook line: only the month of the
transaction date survives into the table that
`calculate_tds_amounts` sorts. -/
def toPRow (b : BLine) : PRow :=
  { vendor := b.vendor, pan_type := "", month := monthOf b.date,
    rowNo := b.rowNo, amount := b.amount, sec := "194Q", limit1 := 5000000,
    limit2 := none, rateInd := 1, rateOther := 1, total := 0, app := "Yes",
    rate := 1, reason := "", tdsAmount := 0 }

/-- Modelled from the spec: the order the claim asserts, a sort on
(vendor, full transaction date, original row order). -/
def dateKey (b : BLine) : String ×ₗ ((ℕ ×ₗ ℕ) ×ₗ ℕ) :=
  toLex (b.vendor, toLex (toLex b.date, b.rowNo))

def dateLe (a b : BLine) : Prop := dateKey a ≤ dateKey b

instance dateLeDec : ∀ a b : BLine, Decidable (dateLe a b) := fun a b =>
  inferInstanceAs (Decidable (dateKey a ≤ dateKey b))

def insertByDate (r : BLine) : List BLine → List BLine
  | [] => [r]
  | x :: xs => if dateLe r x then r :: x :: xs else x :: insertByDate r xs

/-- Modelled from the spec: stable sort by (vendor, transaction date,
original row order). -/
def sortLinesByDate (ls : List BLine) : List BLine := ls.foldr insertByDate []

/-- Claim C6 (counterexample): the code does NOT process 194Q lines in
the order of a sort on (vendor, transaction date, original row order):
for one vendor with two lines in the same month, dated the 15th
(row 1) and the 10th (row 2), the code's sort key (vendor, month,
row number) keeps row 1 first although row 2 has the earlier date. -/
theorem sort_claim_counterexample :
    ¬ sortLines [toPRow ⟨"V", (1, 15), 1, 100⟩, toPRow ⟨"V", (1, 10), 2, 100⟩] =
      (sortLinesByDate [⟨"V", (1, 15), 1, 100⟩, ⟨"V", (1, 10), 2, 100⟩]).map
        toPRow := by
  have hkey : keyLe (toPRow ⟨"V", (1, 15), 1, 100⟩)
      (toPRow ⟨"V", (1, 10), 2, 100⟩) := by
    rw [keyLe_iff]
    exact Or.inr ⟨rfl, Or.inr ⟨rfl, by simp [toPRow]⟩⟩
  have hdate : ¬ dateLe (⟨"V", (1, 15), 1, 100⟩ : BLine)
      ⟨"V", (1, 10), 2, 100⟩ := by
    unfold dateLe dateKey
    intro hle
    rcases (Prod.Lex.le_iff _ _).mp hle with h | ⟨-, h2⟩
    · exact lt_irrefl _ h
    · rcases (Prod.Lex.le_iff _ _).mp h2 with h3 | ⟨h4, -⟩
      · rcases (Prod.Lex.lt_iff _ _).mp h3 with h5 | ⟨-, h6⟩
        · exact lt_irrefl _ h5
        · exact absurd h6 (by norm_num)
      · have h7 := congrArg (fun p => (ofLex p).2) h4
        exact absurd h7 (by norm_num)
  have hL : sortLines [toPRow ⟨"V", (1, 15), 1, 100⟩,
      toPRow ⟨"V", (1, 10), 2, 100⟩] =
      [toPRow ⟨"V", (1, 15), 1, 100⟩, toPRow ⟨"V", (1, 10), 2, 100⟩] := by
    simp only [sortLines, List.foldr_cons, List.foldr_nil, insertSorted]
    rw [if_pos hkey]
  have hR : sortLinesByDate [(⟨"V", (1, 15), 1, 100⟩ : BLine),
      ⟨"V", (1, 10), 2, 100⟩] =
      [(⟨"V", (1, 10), 2, 100⟩ : BLine), ⟨"V", (1, 15), 1, 100⟩] := by
    simp only [sortLinesByDate, List.foldr_cons, List.foldr_nil, insertByDate]
    rw [if_neg hdate]
  intro h
  rw [hL, hR] at h
  have h2 := congrArg (fun l => l.map PRow.rowNo) h
  simp only [List.map_cons, List.map_nil, toPRow] at h2
  exact absurd (List.head_eq_of_cons_eq h2) (by norm_num)

/-- Claim C6 (amended): the 194Q pass sorts its lines by (vendor,
transaction month, original row number) — the date only at month
granularity, with ties inside a month broken by original row order —
and processes a permutation of its input, so per-vendor processing is
deterministic and chronological at month granularity. -/
theorem calc194Q_sort_order (ls : List PRow) :
    List.Perm (sortLines ls) ls ∧
    (sortLines ls).Pairwise (fun a b =>
      a.vendor < b.vendor ∨ (a.vendor = b.vendor ∧
        (a.month < b.month ∨ (a.month = b.month ∧ a.rowNo ≤ b.rowNo)))) := by
  refine ⟨sortLines_perm ls, ?_⟩
  have h := sortLines_sorted ls
  exact h.imp (fun hab => (keyLe_iff _ _).mp hab)

/-! ## Section gate, overrides, applicability, rates (step2) -/

/-- Whitespace test used by Python `str.strip()` (ASCII subset). -/
def isWs (c : Char) : Bool := c = ' ' ∨ c = '\t' ∨ c = '\n' ∨ c = '\r'

/-- Model of Python `str.strip()`: drop leading and trailing
whitespace. -/
def pyStrip (s : String) : String :=
  String.mk (((s.data.dropWhile isWs).reverse.dropWhile isWs).reverse)

/-- Model of Python `str.lower()` (ASCII-faithful). -/
def pyLower (s : String) : String := String.mk (s.data.map Char.toLower)

/-- Model of Python `str.upper()` (ASCII-faithful). -/
def pyUpper (s : String) : String := String.mk (s.data.map Char.toUpper)

/-- One row of the hardcoded vendor table (`Hardcoded Vendors.csv`):
`TDS Section`, `TDS Applicable` and `Reason` cells, missing cells as
`""`.  The table itself (`hardcoded_map`) is a partial map keyed by
the trimmed, lower-cased vendor name. -/
structure OverrideEntry where
  sec : String
  app : String
  reason : String
  deriving DecidableEq

/-- The turnover gate (step2, lines 162-163): a looked-up section of
exactly "194Q" is forced to "NA" when the turnover flag is false. -/
def gateSection (turnover_gt_10cr : Bool) (sec : String) : String :=
  if sec = "194Q" ∧ ¬ turnover_gt_10cr then "NA" else sec

/-- Model of `_section_override` (step2, lines 185-191): a non-empty
stripped override section replaces the computed section. -/
def _section_override (hard : String → Option OverrideEntry)
    (vendor sec : String) : String :=
  match hard (pyLower (pyStrip vendor)) with
  | some e => if pyStrip e.sec ≠ "" then pyStrip e.sec else sec
  | none => sec

/-- Python `str.title()` restricted to single-word values (the only
shape that can equal "Yes"/"No" after title-casing): first character
upper-cased, the rest lower-cased. -/
def pyTitleWord (s : String) : String :=
  match s.toList with
  | [] => ""
  | c :: cs => String.mk (c.toUpper :: cs.map Char.toLower)

/-- The applicability part of `_apply_final_overrides` (step2, lines
341-343): an override whose `TDS Applicable` cell title-cases to
"Yes" or "No" replaces the computed applicability. -/
def _apply_final_overrides_app (hard : String → Option OverrideEntry)
    (vendor app : String) : String :=
  match hard (pyLower (pyStrip vendor)) with
  | some e =>
      let a := pyTitleWord (pyStrip e.app)
      if a = "Yes" ∨ a = "No" then a else app
  | none => app

/-- The reason part of `_apply_final_overrides` (step2, lines 344-349). -/
def _apply_final_overrides_reason (hard : String → Option OverrideEntry)
    (vendor reason : String) : String :=
  match hard (pyLower (pyStrip vendor)) with
  | some e =>
      if pyStrip e.reason ≠ "" then "Hardcoded - " ++ pyStrip e.reason
      else "Hardcoded - Reason Not Provided"
  | none => reason

/-- Model of `compute_applicability` (step2, lines 241-251). -/
def compute_applicability (sec : String) (limit1 : ℚ) (limit2 : Option ℚ)
    (total amount : ℚ) : String :=
  let s := pyUpper (pyStrip sec)
  if s = "" ∨ s = "NA" ∨ s = "192" then "No"
  else if limit1 ≤ |total| then "Yes"
  else match limit2 with
    | some l2 => if l2 ≤ |amount| then "Yes" else "No"
    | none => "No"

/-- Model of `applicability_reason` (step2, lines 321-331); the
`f"Above Limit 2 ({limit2})"` interpolation is rendered with `toString`
(its exact numeral formatting is immaterial here). -/
def applicability_reason (sec : String) (limit1 : ℚ) (limit2 : Option ℚ)
    (total amount : ℚ) : String :=
  let s := pyUpper (pyStrip sec)
  if s = "" ∨ s = "NA" ∨ s = "NONE" ∨ s = "NULL" then "Section NA"
  else if s = "192" then "Section 192 - Salary (not applicable)"
  else if limit1 ≤ |total| then "Above Limit 1"
  else match limit2 with
    | some l2 =>
        if l2 ≤ |amount| then "Above Limit 2 (" ++ toString l2 ++ ")"
        else "Below Limits"
    | none => "Below Limits"

/-- Model of `compute_rate` (step2, lines 255-260). -/
def compute_rate (app pan_type : String) (rateInd rateOther : ℚ) : ℚ :=
  if app ≠ "Yes" then 0
  else if pan_type = "P" then rateInd else rateOther

/-- One row of the `tds_rates.csv` table after its column prep (step2,
lines 200-210): `Limit 1` and both rates NaN-filled to 0 inside the
table, `Limit 2` kept nullable. -/
structure RateRule where
  limit1 : ℚ
  limit2 : Option ℚ
  rateInd : ℚ
  rateOther : ℚ

/-- The rate columns a row ends up with: the `how="left"` merge on the
section (lines 224-231) followed by `fillna(0)` on `Limit 1` and both
rates (lines 233-235); a section absent from the table therefore gets
limit1 = 0, limit2 = none, both rates = 0. -/
def mergeRates (lookup : String → Option RateRule) (sec : String) :
    RateRule :=
  match lookup sec with
  | some rr => rr
  | none => ⟨0, none, 0, 0⟩

/-- The final applicability of a line: turnover gate, then section
override, then `compute_applicability`, then the hardcoded
applicability override (the order of step2: lines 161-163, 193, 253,
352). -/
def finalApp (turnover_gt_10cr : Bool) (hard : String → Option OverrideEntry)
    (vendor sec0 : String) (limit1 : ℚ) (limit2 : Option ℚ)
    (total amount : ℚ) : String :=
  _apply_final_overrides_app hard vendor
    (compute_applicability
      (_section_override hard vendor (gateSection turnover_gt_10cr sec0))
      limit1 limit2 total amount)

/-- Hardcoded table with one vendor whose override section is 194Q and
whose applicability cell is empty. -/
def hardAcme : String → Option OverrideEntry := fun v =>
  if v = "acme ltd" then some ⟨"194Q", "", "major goods vendor"⟩ else none

/-- Claim C4 (counterexample): with the turnover flag false, a line
whose looked-up section is 194Q does NOT always end with applicability
"No": the gate runs before the hardcoded section override, so a vendor
whose override section is 194Q gets the section reinstated and (with
limit1 = 0) applicability "Yes". -/
theorem turnover_gate_claim_counterexample :
    ¬ finalApp false hardAcme "Acme Ltd" "194Q" 0 none 10000000 10000000 =
      "No" := by
  decide

/-- Claim C4 (amended): with the turnover flag false, a line whose
looked-up section is 194Q resolves to final applicability "No"
whenever its vendor has no entry in the hardcoded override table; an
override entry can reinstate the section (or force applicability)
after the gate. -/
theorem turnover_gate_spec (hard : String → Option OverrideEntry)
    (vendor sec0 : String) (limit1 : ℚ) (limit2 : Option ℚ)
    (total amount : ℚ) (hnone : hard (pyLower (pyStrip vendor)) = none)
    (hsec : sec0 = "194Q") :
    finalApp false hard vendor sec0 limit1 limit2 total amount = "No" := by
  subst hsec
  have h1 : gateSection false "194Q" = "NA" := by decide
  have hca : compute_applicability "NA" limit1 limit2 total amount = "No" := by
    simp only [compute_applicability]
    rw [if_pos (by decide)]
  unfold finalApp
  rw [h1]
  unfold _section_override
  rw [hnone]
  unfold _apply_final_overrides_app
  rw [hnone]
  exact hca

/-- Witness for C4 (amended): a 194Q line of an un-overridden vendor
with a huge amount still resolves to "No" when the flag is false. -/
theorem turnover_gate_spec_witness :
    finalApp false (fun _ => none) "Some Vendor" "194Q" 30000 none
      100000000 100000000 = "No" :=
  turnover_gate_spec (fun _ => none) "Some Vendor" "194Q" 30000 none
    100000000 100000000 rfl rfl

/-- Model of `calculate_tds_amounts` (step2, lines 267-316): the 194Q
subset is sorted and run through the cumulative loop, every other row
gets `round_away(amount*rate/100)` when applicable and 0 otherwise;
the result is the 194Q block followed by the rest
(`pd.concat([df_194q, df_other], ignore_index=True).sort_index()`). -/
def calculate_tds_amounts (rows : List PRow) : List PRow :=
  calcQ (sortLines (rows.filter fun r => r.sec = "194Q")) ++
    (rows.filter fun r => ¬ r.sec = "194Q").map fun r =>
      { r with tdsAmount :=
          if r.app = "Yes" then round_away (r.amount * r.rate / 100) else 0 }

/-- The per-row work of the second pass before amounts are recomputed:
`_apply_final_overrides` (line 352) followed by the `compute_rate`
re-application (line 353). -/
def applyOverrideAndRate (hard : String → Option OverrideEntry)
    (r : PRow) : PRow :=
  let app2 := _apply_final_overrides_app hard r.vendor r.app
  { r with app := app2,
           reason := _apply_final_overrides_reason hard r.vendor r.reason,
           rate := compute_rate app2 r.pan_type r.rateInd r.rateOther }

/-- The second amount pass (step2, lines 352-354): overrides, rate
recomputation, then `calculate_tds_amounts` again. -/
def pass2 (hard : String → Option OverrideEntry) (rows : List PRow) :
    List PRow :=
  calculate_tds_amounts (rows.map (applyOverrideAndRate hard))

/-- A line whose applicability is not "Yes" gets TDS amount 0 from the
194Q loop (`tds_amt` stays 0 and `round_away 0 = 0`). -/
theorem tdsOf_not_yes (c : ℚ) (r : PRow) (h : ¬ r.app = "Yes") :
    tdsOf c r = 0 := by
  unfold tdsOf
  rw [if_neg h, round_away_zero]

/-- A line with rate 0 gets TDS amount 0 from the 194Q loop. -/
theorem tdsOf_rate_zero (c : ℚ) (r : PRow) (h : r.rate = 0) :
    tdsOf c r = 0 := by
  unfold tdsOf
  rw [h]
  split_ifs <;> simp [round_away_zero]

/-- Every output row of the 194Q loop is an input row with its
`tdsAmount` recomputed (for some cumulative value). -/
theorem mem_calcQAux (ls : List PRow) :
    ∀ (cum : String → ℚ) (r : PRow), r ∈ calcQAux cum ls →
      ∃ x ∈ ls, ∃ c : ℚ, r = { x with tdsAmount := tdsOf c x } := by
  induction ls with
  | nil => intro cum r hr; exact absurd hr (by simp [calcQAux])
  | cons a as ih =>
    intro cum r hr
    rcases List.mem_cons.mp hr with rfl | h
    · exact ⟨a, List.mem_cons_self a as, cum a.vendor, rfl⟩
    · obtain ⟨x, hx, c, rfl⟩ := ih (stepCum cum a) r h
      exact ⟨x, List.mem_cons_of_mem a hx, c, rfl⟩

/-- Claim C5: if a vendor's hardcoded override entry title-cases to
applicability "No", every row of that vendor output by the re-run
amount pass carries TDS rate 0 and TDS amount 0 — including 194Q rows,
whose cumulative-crossing logic is bypassed by the "No" flag. -/
theorem override_no_forces_zero (hard : String → Option OverrideEntry)
    (rows : List PRow) (r : PRow) (hr : r ∈ pass2 hard rows)
    (e : OverrideEntry) (he : hard (pyLower (pyStrip r.vendor)) = some e)
    (hno : pyTitleWord (pyStrip e.app) = "No") :
    r.rate = 0 ∧ r.tdsAmount = 0 := by
  have key : ∀ x ∈ rows.map (applyOverrideAndRate hard),
      x.vendor = r.vendor → x.app = "No" ∧ x.rate = 0 := by
    intro x hx hv
    obtain ⟨x0, _, rfl⟩ := List.mem_map.mp hx
    have hv0 : x0.vendor = r.vendor := hv
    have happ : _apply_final_overrides_app hard x0.vendor x0.app = "No" := by
      unfold _apply_final_overrides_app
      rw [hv0, he]
      simp [hno]
    refine ⟨happ, ?_⟩
    show compute_rate (_apply_final_overrides_app hard x0.vendor x0.app)
      x0.pan_type x0.rateInd x0.rateOther = 0
    rw [happ]
    unfold compute_rate
    rw [if_pos (by decide)]
  rcases List.mem_append.mp hr with hq | ho
  · obtain ⟨x, hx, c, rfl⟩ := mem_calcQAux _ _ _ hq
    have hx2 : x ∈ rows.map (applyOverrideAndRate hard) :=
      (List.mem_filter.mp ((sortLines_perm _).mem_iff.mp hx)).1
    have hxr : x.vendor = ({ x with tdsAmount := tdsOf c x } : PRow).vendor :=
      rfl
    obtain ⟨happ, hrate⟩ := key x hx2 hxr
    exact ⟨hrate, tdsOf_not_yes c x (by rw [happ]; decide)⟩
  · obtain ⟨x, hx, rfl⟩ := List.mem_map.mp ho
    have hx2 : x ∈ rows.map (applyOverrideAndRate hard) :=
      (List.mem_filter.mp hx).1
    obtain ⟨happ, hrate⟩ := key x hx2 rfl
    refine ⟨hrate, ?_⟩
    show (if x.app = "Yes" then round_away (x.amount * x.rate / 100) else 0) = 0
    rw [if_neg (by rw [happ]; decide)]

/-- Hardcoded table for the C5 witness: one vendor overridden to
applicability "no". -/
def hardNoW : String → Option OverrideEntry := fun v =>
  if v = "blocked vendor" then some ⟨"", "no", "exempt"⟩ else none

/-- A 194Q row of the overridden vendor, applicable with a positive
rate before the override pass. -/
def rowNoW : PRow :=
  { vendor := "Blocked Vendor", pan_type := "P", month := 1, rowNo := 1,
    amount := 9000000, sec := "194Q", limit1 := 5000000, limit2 := none,
    rateInd := 1, rateOther := 1, total := 9000000, app := "Yes",
    rate := 1, reason := "Above Limit 1", tdsAmount := 0 }

/-- Witness for C5: the overridden vendor's single 194Q row comes out
of the second pass with rate 0 and amount 0. -/
theorem override_no_forces_zero_witness :
    ((pass2 hardNoW [rowNoW]).get ⟨0, by decide⟩).rate = 0 ∧
    ((pass2 hardNoW [rowNoW]).get ⟨0, by decide⟩).tdsAmount = 0 :=
  override_no_forces_zero hardNoW [rowNoW] _
    (List.get_mem _ 0 (by decide)) ⟨"", "no", "exempt"⟩ (by decide) (by decide)

/-- Claim C9 (counterexample): the claim fails for the section
literal "NONE": it is non-blank and neither "NA" nor "192", it has no
rate entry, and it is marked applicable as claimed — but the reason
logic also treats "NONE" (and "NULL") as a missing section, so the
reason is "Section NA", not "Above Limit 1". -/
theorem missing_rate_claim_counterexample :
    compute_applicability "NONE" (mergeRates (fun _ => none) "NONE").limit1
      (mergeRates (fun _ => none) "NONE").limit2 100 100 = "Yes" ∧
    ¬ applicability_reason "NONE" (mergeRates (fun _ => none) "NONE").limit1
      (mergeRates (fun _ => none) "NONE").limit2 100 100 = "Above Limit 1" := by
  constructor
  · simp only [compute_applicability, mergeRates]
    rw [if_neg (by decide), if_pos (by norm_num)]
  · simp only [applicability_reason, mergeRates]
    rw [if_pos (by decide)]
    decide

/-- Claim C9 (amended): a line whose final section is non-blank and
none of "NA", "NONE", "NULL", "192" (case-insensitively, after
stripping) but absent from the rate table gets limit1 = 0 and both
rates 0 from the left-merge fillna, hence is always marked applicable
with reason "Above Limit 1", while its TDS rate and TDS amount are 0
(on the 194Q path every branch multiplies by the zero rate, and on
the simple path so does the single formula). -/
theorem missing_rate_rule_spec (lookup : String → Option RateRule)
    (sec pan_type : String) (total amount : ℚ) (ls : List PRow) (i : ℕ)
    (hi : i < ls.length) (hmiss : lookup sec = none)
    (hsec : ¬ (pyUpper (pyStrip sec) = "" ∨ pyUpper (pyStrip sec) = "NA" ∨
      pyUpper (pyStrip sec) = "NONE" ∨ pyUpper (pyStrip sec) = "NULL" ∨
      pyUpper (pyStrip sec) = "192")) :
    compute_applicability sec (mergeRates lookup sec).limit1
      (mergeRates lookup sec).limit2 total amount = "Yes" ∧
    applicability_reason sec (mergeRates lookup sec).limit1
      (mergeRates lookup sec).limit2 total amount = "Above Limit 1" ∧
    compute_rate
      (compute_applicability sec (mergeRates lookup sec).limit1
        (mergeRates lookup sec).limit2 total amount) pan_type
      (mergeRates lookup sec).rateInd (mergeRates lookup sec).rateOther = 0 ∧
    ((ls.get ⟨i, hi⟩).rate = 0 →
      ((calcQ ls).get ⟨i, by rw [length_calcQ]; exact hi⟩).tdsAmount = 0) ∧
    (∀ r : PRow, r.rate = 0 →
      (if r.app = "Yes" then round_away (r.amount * r.rate / 100) else 0) = 0) := by
  have hmr : mergeRates lookup sec = ⟨0, none, 0, 0⟩ := by
    unfold mergeRates
    rw [hmiss]
  rw [hmr]
  have happ : compute_applicability sec (0 : ℚ) none total amount = "Yes" := by
    simp only [compute_applicability]
    rw [if_neg (fun h => hsec (by tauto)), if_pos (by positivity)]
  refine ⟨happ, ?_, ?_, ?_, ?_⟩
  · simp only [applicability_reason]
    rw [if_neg (fun h => hsec (by tauto)),
      if_neg (fun h => hsec (by tauto)), if_pos (by positivity)]
  · rw [happ]
    unfold compute_rate
    rw [if_neg (by decide)]
    split_ifs <;> rfl
  · intro hrate
    rw [calcQ_get ls i hi]
    exact tdsOf_rate_zero _ _ hrate
  · intro r hrate
    rw [hrate]
    split_ifs with h
    · simp [round_away_zero]
    · rfl

/-- Witness for C9: a section "194J" with no rate entry, plus a
one-line table whose row carries the resulting zero rate. -/
theorem missing_rate_rule_spec_witness :
    compute_applicability "194J" (mergeRates (fun _ => none) "194J").limit1
      (mergeRates (fun _ => none) "194J").limit2 12345 12345 = "Yes" ∧
    applicability_reason "194J" (mergeRates (fun _ => none) "194J").limit1
      (mergeRates (fun _ => none) "194J").limit2 12345 12345 =
      "Above Limit 1" :=
  ⟨(missing_rate_rule_spec (fun _ => none) "194J" "P" 12345 12345 [rowNoW] 0
      (by norm_num) rfl (by decide)).1,
   (missing_rate_rule_spec (fun _ => none) "194J" "P" 12345 12345 [rowNoW] 0
      (by norm_num) rfl (by decide)).2.1⟩

/-! ## The voucher loop of `run_step2` (lines 117-178) -/

/-- A raw daybook line (one row of a voucher group).  `party = ""`
models an empty/NaN `$Party_LedName`; `date` is the full transaction
date `(month, day)`. -/
structure DbLine where
  ledgerName : String   -- "$LedgerName"
  ledGroup : String     -- "$Led_Group"
  party : String        -- "$Party_LedName"
  amount : ℚ            -- "$Amount"
  date : ℕ × ℕ          -- "$Date"
  vtype : String        -- "$VoucherTypeName"
  narration : String    -- "$Narration"
  deriving DecidableEq

/-- `GROUP_FILTER` (step2, lines 34-39). -/
def GROUP_FILTER : List String :=
  ["Direct Expenses", "Indirect Expenses", "Purchase Accounts", "Fixed Assets"]

/-- The expense rows of a voucher group (line 120: raw `$Led_Group`
membership in `GROUP_FILTER`). -/
def expenseRows (g : List DbLine) : List DbLine :=
  g.filter fun l => GROUP_FILTER.contains l.ledGroup

/-- The creditor rows of a voucher group (lines 121-123: cleaned
`$Led_Group` in ["sundry creditors", "unsecured loans"]). -/
def creditorRows (g : List DbLine) : List DbLine :=
  g.filter fun l =>
    ["sundry creditors", "unsecured loans"].contains (pyLower (pyStrip l.ledGroup))

/-- Vendor resolution per expense line (lines 137-145): the party
field if non-empty after stripping, else the first creditor row's
ledger name, else the sentinel "Unassigned". -/
def resolveVendor (cred : List DbLine) (l : DbLine) : String :=
  let v0 := if pyStrip l.party ≠ "" then l.party else "Unassigned"
  if v0 = "Unassigned" then
    match cred with
    | c :: _ => c.ledgerName
    | [] => "Unassigned"
  else v0

/-- Model of `.replace(" ", "")` (line 156). -/
def stripSpaces (s : String) : String :=
  String.mk (s.data.filter fun c => ¬ c = ' ')

/-- Structural word splitter used by `_normalize` (collapse runs of
spaces, drop empties). -/
def wordsAux : List Char → List Char → List String
  | [], acc => if acc = [] then [] else [String.mk acc.reverse]
  | c :: cs, acc =>
      if c = ' ' then
        if acc = [] then wordsAux cs []
        else String.mk acc.reverse :: wordsAux cs []
      else wordsAux cs (c :: acc)

/-- Model of `_normalize` (step2, lines 42-46): lower-case, strip,
drop characters that are not alphanumeric or space, collapse runs of
whitespace to single spaces. -/
def _normalize (s : String) : String :=
  " ".intercalate
    (wordsAux ((pyLower (pyStrip s)).data.filter
      fun c => c.isAlphanum ∨ c = ' ') [])

/-- A computed TDS row as appended to `final_rows` (lines 165-178). -/
structure FRow where
  ledger : String
  vendor : String
  pan : String
  month : ℕ
  amount : ℚ
  key : String
  vtype : String
  narration : String
  ledgerGroup : String
  sec : String
  deriving DecidableEq

/-- One record of the Unassigned discrepancy list (lines 147-154). -/
structure UnassignedRec where
  key : String
  ledger : String
  vtype : String
  narration : String
  deriving DecidableEq

/-- The computed row built from one expense line of voucher `key`
(lines 128-178): vendor resolution, PAN lookup on the squashed
lower-case vendor, section lookup on the normalized ledger name with
default "NA", turnover gate, and the NEGATED signed daybook amount
(`amount = -row["$Amount"]`, line 132). -/
def mkFRow (key : String) (turnover : Bool)
    (panMap secMap : String → Option String) (g : List DbLine)
    (l : DbLine) : FRow :=
  let vendor := resolveVendor (creditorRows g) l
  { ledger := l.ledgerName, vendor := vendor,
    pan := (panMap (stripSpaces (pyLower (pyStrip vendor)))).getD
      "PAN not found",
    month := monthOf l.date, amount := -l.amount, key := key,
    vtype := l.vtype, narration := l.narration, ledgerGroup := l.ledGroup,
    sec := gateSection turnover
      ((secMap (_normalize l.ledgerName)).getD "NA") }

/-- The rows a voucher group contributes to `final_rows`: one per
expense line, in order. -/
def pvRows (key : String) (turnover : Bool)
    (panMap secMap : String → Option String) (g : List DbLine) :
    List FRow :=
  (expenseRows g).map (mkFRow key turnover panMap secMap g)

/-- The Unassigned discrepancies a voucher group contributes (lines
142-154): one record per expense line whose resolved vendor fell to
the sentinel with no creditor row present. -/
def pvUnassigned (key : String) (g : List DbLine) : List UnassignedRec :=
  (expenseRows g).filterMap fun l =>
    if (if pyStrip l.party ≠ "" then l.party else "Unassigned") =
        "Unassigned" ∧ creditorRows g = [] then
      some ⟨key, l.ledgerName, l.vtype, l.narration⟩
    else none

/-- Claim C8: an expense line with an empty party field in a voucher
with zero creditor/loan lines yields an Unassigned discrepancy record
carrying the voucher key, ledger, voucher type and narration, and the
line itself still produces a computed row (vendor "Unassigned",
negated amount) — it is not dropped, and no exception path exists. -/
theorem unassigned_line_recorded (key : String) (turnover : Bool)
    (panMap secMap : String → Option String) (g : List DbLine) (l : DbLine)
    (hl : l ∈ expenseRows g) (hparty : pyStrip l.party = "")
    (hcred : creditorRows g = []) :
    (⟨key, l.ledgerName, l.vtype, l.narration⟩ : UnassignedRec) ∈
      pvUnassigned key g ∧
    (pvRows key turnover panMap secMap g).length = (expenseRows g).length ∧
    ∃ r ∈ pvRows key turnover panMap secMap g,
      r.key = key ∧ r.ledger = l.ledgerName ∧ r.vendor = "Unassigned" ∧
      r.amount = -l.amount := by
  have hv : resolveVendor (creditorRows g) l = "Unassigned" := by
    simp [resolveVendor, hparty, hcred]
  refine ⟨List.mem_filterMap.mpr ⟨l, hl, ?_⟩, ?_, ?_⟩
  · rw [if_pos ⟨by rw [hparty]; simp, hcred⟩]
  · simp [pvRows]
  · refine ⟨mkFRow key turnover panMap secMap g l,
      List.mem_map_of_mem _ hl, rfl, rfl, ?_, rfl⟩
    show resolveVendor (creditorRows g) l = "Unassigned"
    exact hv

/-- A voucher with a single expense line, empty party and no creditor
lines, for the C8 witness. -/
def dbW : DbLine :=
  { ledgerName := "Printing Charges", ledGroup := "Direct Expenses",
    party := "", amount := 500, date := (1, 5), vtype := "Journal",
    narration := "note" }

/-- Witness for C8: the single-line voucher's discrepancy record is
emitted and its row count is preserved. -/
theorem unassigned_line_recorded_witness :
    (⟨"K1", "Printing Charges", "Journal", "note"⟩ : UnassignedRec) ∈
      pvUnassigned "K1" [dbW] ∧
    (pvRows "K1" false (fun _ => none) (fun _ => none) [dbW]).length =
      (expenseRows [dbW]).length :=
  ⟨(unassigned_line_recorded "K1" false (fun _ => none) (fun _ => none)
      [dbW] dbW (by decide) (by decide) (by decide)).1,
   (unassigned_line_recorded "K1" false (fun _ => none) (fun _ => none)
      [dbW] dbW (by decide) (by decide) (by decide)).2.1⟩

/-- Claim C10: the Amount field of every computed TDS row is the
NEGATION of the corresponding daybook line's signed amount — the
value that feeds all vendor-section totals, threshold comparisons and
TDS amount computations downstream. -/
theorem computed_amount_is_negated (key : String) (turnover : Bool)
    (panMap secMap : String → Option String) (g : List DbLine) :
    (pvRows key turnover panMap secMap g).map FRow.amount =
      (expenseRows g).map fun l => -l.amount := by
  unfold pvRows
  rw [List.map_map]
  rfl

/-! ## Step 5 — three-way reconciliation (`run_step5`)

Aggregated rows of the three sources, already keyed by the cleaned
(upper-cased, stripped) strings of lines 32-44 and grouped by lines
47-80; missing cells are `none`.  The pandas outer merges of lines
83-97 are modelled as: every pair of key-matching rows, plus
left-only rows with right columns `none`, plus right-only rows with
left columns `none`. -/

/-- One row of `calc_agg` (computed side, lines 55-66). -/
structure CalcRow where
  month : String
  vendor : String
  pan : String
  secT : String        -- "Section as per Tally"
  amountPaid : ℚ       -- "Amount Paid as per Tally"
  tdsCalc : ℚ          -- "TDS as per Calculation"
  deriving DecidableEq

/-- One row of `tally_agg` (book side, lines 47-52). -/
structure TallyRow where
  month : String
  vendor : String
  tdsTally : ℚ         -- "TDS as per Tally"
  deriving DecidableEq

/-- One row of `q26_df` (filed side, lines 69-80). -/
structure Q26Row where
  month : String
  vendor : String
  pan : String
  sec26 : String       -- "Section as per 26Q"
  amountPaid26 : ℚ     -- "Amount Paid as per 26Q"
  tds26 : ℚ            -- "TDS as per 26Q"
  deriving DecidableEq

/-- One row of `merged_calc_tally` (line 83-85). -/
structure M1Row where
  month : String
  vendor : String
  pan : Option String
  secT : Option String
  amountPaid : Option ℚ
  tdsCalc : Option ℚ
  tdsTally : Option ℚ
  deriving DecidableEq

/-- One row of `final_df` restricted to the exported columns (lines
99-150). -/
structure FinalRow where
  month : String
  vendorName : String
  pan : String
  secT : Option String
  sec26 : Option String
  amountPaid : Option ℚ
  amountPaid26 : Option ℚ
  tdsCalc : Option ℚ
  tdsTally : Option ℚ
  tds26 : Option ℚ
  diffTdsTally26 : Option ℚ
  diffTdsCalc26 : Option ℚ
  diffAmount26 : Option ℚ
  diffSec : Bool
  deriving DecidableEq

/-- Model of `.round(2)` on a defined value (ties-at-half-a-cent use
`round`; pandas' bankers rounding differs only at exact ties, which no
claim exercises). -/
def round2 (x : ℚ) : ℚ := ((round (100 * x) : ℤ) : ℚ) / 100

/-- NaN-propagating subtraction followed by `.round(2)` (lines
119-127): a missing operand yields a missing difference. -/
def osub (a b : Option ℚ) : Option ℚ :=
  match a, b with
  | some x, some y => some (round2 (x - y))
  | _, _ => none

/-- Pandas `!=` on two possibly-missing section cells: NaN compares
unequal to everything, including NaN (line 129-131). -/
def secNe (a b : Option String) : Bool :=
  match a, b with
  | some x, some y => x != y
  | _, _ => true

/-- The (month, vendor) key match of the first outer merge (line 84). -/
def cmatch (c : CalcRow) (t : TallyRow) : Bool :=
  c.month == t.month && c.vendor == t.vendor

/-- First outer merge: computed vs book on (month, vendor). -/
def merge1 (cs : List CalcRow) (tally : List TallyRow) : List M1Row :=
  (cs.flatMap fun c =>
    let ms := tally.filter (cmatch c)
    if ms.isEmpty then
      [⟨c.month, c.vendor, some c.pan, some c.secT, some c.amountPaid,
        some c.tdsCalc, none⟩]
    else ms.map fun t =>
      ⟨c.month, c.vendor, some c.pan, some c.secT, some c.amountPaid,
        some c.tdsCalc, some t.tdsTally⟩) ++
  ((tally.filter fun t => ¬ cs.any fun c => cmatch c t).map fun t =>
    ⟨t.month, t.vendor, none, none, none, none, some t.tdsTally⟩)

/-- `merged_calc_tally["PAN_clean"].fillna("NA")` (line 88). -/
def fillPan (m : M1Row) : M1Row := { m with pan := some (m.pan.getD "NA") }

/-- The (month, PAN, section) key match of the second outer merge
(lines 91-97): the computed side's section against the filed side's
section. -/
def m2Match (m : M1Row) (q : Q26Row) : Bool :=
  m.month == q.month && m.pan == some q.pan && m.secT == some q.sec26

/-- A final row built from a left row and its (possibly absent) filed
match; the vendor name prefers the computed/book side (line 103). -/
def mkFinal (m : M1Row) (oq : Option Q26Row) : FinalRow :=
  { month := m.month, vendorName := m.vendor, pan := m.pan.getD "NA",
    secT := m.secT, sec26 := oq.map Q26Row.sec26,
    amountPaid := m.amountPaid, amountPaid26 := oq.map Q26Row.amountPaid26,
    tdsCalc := m.tdsCalc, tdsTally := m.tdsTally,
    tds26 := oq.map Q26Row.tds26,
    diffTdsTally26 := osub m.tdsTally (oq.map Q26Row.tds26),
    diffTdsCalc26 := osub m.tdsCalc (oq.map Q26Row.tds26),
    diffAmount26 := osub m.amountPaid (oq.map Q26Row.amountPaid26),
    diffSec := secNe m.secT (oq.map Q26Row.sec26) }

/-- A final row for a filed-only aggregate (the right-only part of the
outer merge): the vendor name falls back to the filed vendor. -/
def mkFinalR (q : Q26Row) : FinalRow :=
  { month := q.month, vendorName := q.vendor, pan := q.pan, secT := none,
    sec26 := some q.sec26, amountPaid := none,
    amountPaid26 := some q.amountPaid26, tdsCalc := none, tdsTally := none,
    tds26 := some q.tds26, diffTdsTally26 := none, diffTdsCalc26 := none,
    diffAmount26 := none, diffSec := true }

/-- Second outer merge: (computed ⋈ book) vs filed. -/
def merge2 (ms0 : List M1Row) (qs : List Q26Row) : List FinalRow :=
  ((ms0.map fillPan).flatMap fun m =>
    let hits := qs.filter (m2Match m)
    if hits.isEmpty then [mkFinal m none]
    else hits.map fun q => mkFinal m (some q)) ++
  ((qs.filter fun q => ¬ (ms0.map fillPan).any fun m => m2Match m q).map
    mkFinalR)

/-- The full reconciliation table of step 5. -/
def recon (cs : List CalcRow) (tally : List TallyRow)
    (qs : List Q26Row) : List FinalRow :=
  merge2 (merge1 cs tally) qs

theorem cmatch_iff (c : CalcRow) (t : TallyRow) :
    cmatch c t = true ↔ c.month = t.month ∧ c.vendor = t.vendor := by
  simp [cmatch]

/-- Every left row of the second merge is represented in the final
table with its month and vendor intact. -/
theorem merge2_left (ms0 : List M1Row) (qs : List Q26Row) (m : M1Row)
    (hm : m ∈ ms0) :
    ∃ r ∈ merge2 ms0 qs, r.month = m.month ∧ r.vendorName = m.vendor := by
  have hm2 : fillPan m ∈ ms0.map fillPan := List.mem_map_of_mem _ hm
  by_cases hhit : (qs.filter (m2Match (fillPan m))).isEmpty
  · refine ⟨mkFinal (fillPan m) none, ?_, rfl, rfl⟩
    apply List.mem_append_left
    apply List.mem_flatMap.mpr
    refine ⟨fillPan m, hm2, ?_⟩
    rw [if_pos hhit]
    exact List.mem_singleton_self _
  · obtain ⟨q, hq⟩ := List.exists_mem_of_ne_nil
      (qs.filter (m2Match (fillPan m)))
      (fun hnil => hhit (by rw [hnil]; rfl))
    refine ⟨mkFinal (fillPan m) (some q), ?_, rfl, rfl⟩
    apply List.mem_append_left
    apply List.mem_flatMap.mpr
    refine ⟨fillPan m, hm2, ?_⟩
    rw [if_neg hhit]
    exact List.mem_map_of_mem _ hq

/-- Every computed aggregate row is represented in the first merge
with its month and vendor intact. -/
theorem merge1_calc (cs : List CalcRow) (tally : List TallyRow)
    (c : CalcRow) (hc : c ∈ cs) :
    ∃ m ∈ merge1 cs tally, m.month = c.month ∧ m.vendor = c.vendor := by
  by_cases hhit : (tally.filter (cmatch c)).isEmpty
  · refine ⟨⟨c.month, c.vendor, some c.pan, some c.secT, some c.amountPaid,
      some c.tdsCalc, none⟩, ?_, rfl, rfl⟩
    apply List.mem_append_left
    apply List.mem_flatMap.mpr
    refine ⟨c, hc, ?_⟩
    rw [if_pos hhit]
    exact List.mem_singleton_self _
  · obtain ⟨t, ht⟩ := List.exists_mem_of_ne_nil
      (tally.filter (cmatch c))
      (fun hnil => hhit (by rw [hnil]; rfl))
    refine ⟨⟨c.month, c.vendor, some c.pan, some c.secT, some c.amountPaid,
      some c.tdsCalc, some t.tdsTally⟩, ?_, rfl, rfl⟩
    apply List.mem_append_left
    apply List.mem_flatMap.mpr
    refine ⟨c, hc, ?_⟩
    rw [if_neg hhit]
    exact List.mem_map_of_mem _ ht

/-- Every book aggregate row is represented in the first merge with
its month and vendor intact (through a matching computed row if one
exists, else as a right-only row). -/
theorem merge1_tally (cs : List CalcRow) (tally : List TallyRow)
    (t : TallyRow) (ht : t ∈ tally) :
    ∃ m ∈ merge1 cs tally, m.month = t.month ∧ m.vendor = t.vendor := by
  by_cases hmatch : cs.any (fun c => cmatch c t) = true
  · obtain ⟨c, hc, hct⟩ := List.any_eq_true.mp hmatch
    obtain ⟨hcm, hcv⟩ := (cmatch_iff c t).mp hct
    have htf : t ∈ tally.filter (cmatch c) :=
      List.mem_filter.mpr ⟨ht, hct⟩
    have hne : ¬ (tally.filter (cmatch c)).isEmpty := by
      intro hemp
      rw [List.isEmpty_iff] at hemp
      rw [hemp] at htf
      exact absurd htf (List.not_mem_nil t)
    refine ⟨⟨c.month, c.vendor, some c.pan, some c.secT, some c.amountPaid,
      some c.tdsCalc, some t.tdsTally⟩, ?_, hcm, hcv⟩
    apply List.mem_append_left
    apply List.mem_flatMap.mpr
    refine ⟨c, hc, ?_⟩
    rw [if_neg hne]
    exact List.mem_map_of_mem _ htf
  · refine ⟨⟨t.month, t.vendor, none, none, none, none, some t.tdsTally⟩,
      ?_, rfl, rfl⟩
    apply List.mem_append_right
    apply List.mem_map_of_mem
    exact List.mem_filter.mpr ⟨ht, by simpa using hmatch⟩

/-- Claim C3 (amended): every (month, vendor) key of the computed or
book aggregates appears (at least once) in the reconciliation table
under that month and vendor name; absent sides stay missing (`none`)
rather than zero, filed-side keys are represented only through the
(month, PAN, section) match with the computed vendor taking
precedence, and a key may span several rows when the computed side
has several (PAN, section) groups for it. -/
theorem recon_completeness (cs : List CalcRow) (tally : List TallyRow)
    (qs : List Q26Row) :
    (∀ c ∈ cs, ∃ r ∈ recon cs tally qs,
      r.month = c.month ∧ r.vendorName = c.vendor) ∧
    (∀ t ∈ tally, ∃ r ∈ recon cs tally qs,
      r.month = t.month ∧ r.vendorName = t.vendor) := by
  constructor
  · intro c hc
    obtain ⟨m, hm, hm1, hm2⟩ := merge1_calc cs tally c hc
    obtain ⟨r, hr, hr1, hr2⟩ := merge2_left (merge1 cs tally) qs m hm
    exact ⟨r, hr, hr1.trans hm1, hr2.trans hm2⟩
  · intro t ht
    obtain ⟨m, hm, hm1, hm2⟩ := merge1_tally cs tally t ht
    obtain ⟨r, hr, hr1, hr2⟩ := merge2_left (merge1 cs tally) qs m hm
    exact ⟨r, hr, hr1.trans hm1, hr2.trans hm2⟩

/-- Computed aggregate rows used by the C3 counterexample: one
(month, vendor) key split over two sections, with no book and no
filed data. -/
def cA : CalcRow := ⟨"APR-24", "ACME", "ABCPE1234F", "194C", 100, 2⟩

def cB : CalcRow := ⟨"APR-24", "ACME", "ABCPE1234F", "194J", 50, 1⟩

/-- Claim C3 (counterexample): with two computed rows for the same
(month, vendor) and empty book/filed sources, the reconciliation
table has TWO rows for that key (not exactly one), and the absent
book side's TDS column is missing (`none`), not zero — so the
difference columns are undefined. -/
theorem recon_claim_counterexample :
    ¬ (((recon [cA, cB] [] []).filter fun r =>
          r.month == "APR-24" && r.vendorName == "ACME").length = 1 ∧
        ∀ r ∈ recon [cA, cB] [] [], ¬ r.tdsTally = none) := by
  decide

/-- Witness for C3 (amended): completeness at a concrete input with
one computed row, one unmatched book row and no filed rows. -/
theorem recon_completeness_witness :
    (∃ r ∈ recon [cA] [⟨"MAY-24", "ZETA", 7⟩] [],
      r.month = cA.month ∧ r.vendorName = cA.vendor) ∧
    (∃ r ∈ recon [cA] [⟨"MAY-24", "ZETA", 7⟩] [],
      r.month = "MAY-24" ∧ r.vendorName = "ZETA") :=
  ⟨(recon_completeness [cA] [⟨"MAY-24", "ZETA", 7⟩] []).1 cA
      (List.mem_singleton_self cA),
   (recon_completeness [cA] [⟨"MAY-24", "ZETA", 7⟩] []).2
      ⟨"MAY-24", "ZETA", 7⟩ (List.mem_singleton_self _)⟩

end TdsApp
